import Mathlib

/-!
Shallow embedding of `src/geo_util.py` (class `MapTile`): tile-coordinate
resolution, tile-grid assembly with zero-fill fallback, elevation-text
parsing, and the triangulated gradient estimator (`grad`, `grad_norm`,
`grad_angle`), together with proofs of the specification claims.

Numbers: query coordinates and cell values are rationals (the float
operations involved — truncation, subtraction of the integer part, the
comparison `dx + dy < 1`, finite differences — are exact on the inputs the
claims quantify over).  Machine integers do not overflow here (tile indices
are small), so integers are `ℤ`.
-/

namespace GeoUtil

/-- A tile coordinate `[z, x, y]` as used throughout `geo_util.py`. -/
structure TileCoord where
  z : ℤ
  x : ℤ
  y : ℤ
deriving DecidableEq

/-- The ways `MapTile.__init__` can fail before any tile is fetched:
`assertMaxZoom` is the `assert zoom <= MAX_ZOOM` on line 44 (AssertionError);
`typeErrorRange` is the `range(y1, y2+1)` / `range(x1, x2+1)` call receiving a
float bound — in Python 3, `2 ** e` returns a float whenever `e < 0`, so a
target zoom coarser than a corner tile's zoom makes `x1, y1, x2, y2` floats
and `range` raises TypeError on line 55, before the download loop. -/
inductive BuildError where
  | assertMaxZoom
  | typeErrorRange
deriving DecidableEq

/-- The zoom limit `MAX_ZOOM = 18` (line 43). -/
def MAX_ZOOM : ℤ := 18

/-- Python `range(a, b)` over integers, as a list of `ℤ`. -/
def intRange (a b : ℤ) : List ℤ :=
  (List.range (b - a).toNat).map fun (k : ℕ) => a + (k : ℤ)

/-- Lines 34–59 of `MapTile.__init__`: default `zoom`/`to_tile`, the
`MAX_ZOOM` assertion, the corner-index computation and the double loop
building `tile_list`.  The negative-exponent case is the TypeError described
at `BuildError.typeErrorRange`; with a non-negative exponent `2 ** e` is an
integer and the loops run, so we compute with `(zoom - z).toNat`. -/
def resolveTileList (from_tile : TileCoord) (to_tile : Option TileCoord)
    (zoom : Option ℤ) : Except BuildError (List (List TileCoord)) :=
  let zm := zoom.getD from_tile.z
  let tt := to_tile.getD from_tile
  if MAX_ZOOM < zm then Except.error BuildError.assertMaxZoom
  else if zm < from_tile.z ∨ zm < tt.z then Except.error BuildError.typeErrorRange
  else
    let x1 : ℤ := from_tile.x * 2 ^ (zm - from_tile.z).toNat
    let y1 : ℤ := from_tile.y * 2 ^ (zm - from_tile.z).toNat
    let x2 : ℤ := (tt.x + 1) * 2 ^ (zm - tt.z).toNat - 1
    let y2 : ℤ := (tt.y + 1) * 2 ^ (zm - tt.z).toNat - 1
    Except.ok ((intRange y1 (y2 + 1)).map fun j =>
      (intRange x1 (x2 + 1)).map fun i => TileCoord.mk zm i j)

/-- A raw 2-D numeric block (one tile's content, or the stitched surface).
For elevation tiles `α = ℚ`; an image tile is the same structure with an
RGB triple at each cell. -/
abbrev Cell (α : Type) := List (List α)

/-- Python `int(x)`: truncation toward zero. -/
def pyint (x : ℚ) : ℤ := if 0 ≤ x then ⌊x⌋ else ⌈x⌉

/-- numpy indexing along one axis: a negative index is shifted once by the
length (wrap-around); an index still out of `[0, len)` raises IndexError,
modelled as `none`. -/
def npGet1 {α : Type} (row : List α) (i : ℤ) : Option α :=
  let j : ℤ := if i < 0 then i + (row.length : ℤ) else i
  if 0 ≤ j then row[j.toNat]? else none

/-- numpy 2-D indexing `data[r, c]`, each axis with the wrap semantics of
`npGet1`. -/
def npGet2 {α : Type} (data : Cell α) (r c : ℤ) : Option α :=
  (npGet1 data r).bind fun row => npGet1 row c

/-- The one failure mode of the gradient methods: a numpy IndexError from an
out-of-range element access. -/
inductive GradError where
  | indexError
deriving DecidableEq

/-- Embedding of `MapTile.grad` (lines 92–109): `fx, fy = int(x), int(y)`;
`dx, dy = x - int(x), y - int(y)`; if `dx + dy < 1` take forward differences
anchored at `(fx, fy)`, else backward differences anchored at
`(fx+1, fy+1)`.  Each `self.data[...]` access uses numpy semantics
(`npGet2`); an out-of-range access aborts the query with an IndexError. -/
def grad (data : Cell ℚ) (x y : ℚ) : Except GradError (ℚ × ℚ) :=
  let fx : ℤ := pyint x
  let fy : ℤ := pyint y
  let dx : ℚ := x - (pyint x : ℚ)
  let dy : ℚ := y - (pyint y : ℚ)
  if dx + dy < 1 then
    match npGet2 data fy (fx + 1), npGet2 data fy fx, npGet2 data (fy + 1) fx with
    | some a, some b, some c => Except.ok (a - b, c - b)
    | _, _, _ => Except.error GradError.indexError
  else
    match npGet2 data (fy + 1) (fx + 1), npGet2 data (fy + 1) fx,
        npGet2 data fy (fx + 1) with
    | some a, some b, some c => Except.ok (a - b, a - c)
    | _, _, _ => Except.error GradError.indexError

/-- The function `atan2(y, x)` with range `(-π, π]`, via the complex argument. -/
noncomputable def atan2 (y x : ℝ) : ℝ := Complex.arg (Complex.I * y + x)

/-- Embedding of `MapTile.grad_norm` (lines 111–114): `sqrt(gx**2 + gy**2)` on the result
of `grad`; an IndexError inside `grad` propagates. -/
noncomputable def grad_norm (data : Cell ℚ) (x y : ℚ) : Except GradError ℝ :=
  (grad data x y).map fun g => Real.sqrt ((g.1 : ℝ) ^ 2 + (g.2 : ℝ) ^ 2)

/-- Embedding of `MapTile.grad_angle` (lines 116–119): `arctan2(gy, gx)` on the result of
`grad`; an IndexError inside `grad` propagates. -/
noncomputable def grad_angle (data : Cell ℚ) (x y : ℚ) : Except GradError ℝ :=
  (grad data x y).map fun g => atan2 (g.2 : ℝ) (g.1 : ℝ)

deriving instance DecidableEq for Except

/-- Total 2-D lookup used to state theorems: `data[r][c]` as an `Option`. -/
def cellGet? {α : Type} (data : Cell α) (r c : ℕ) : Option α :=
  data[r]?.bind fun row => row[c]?

/-- Total 2-D lookup into a rational surface, defaulting to `0` out of
range; used only to phrase theorem conclusions at in-range indices. -/
def Sget (data : Cell ℚ) (r c : ℕ) : ℚ := (cellGet? data r c).getD 0

/-! ### Basic lemmas about the numpy indexing model and `pyint` -/

lemma pyint_of_floor_nonneg {x : ℚ} (h : 0 ≤ ⌊x⌋) : pyint x = ⌊x⌋ := by
  unfold pyint
  rw [if_pos]
  exact_mod_cast (Int.le_floor).mp h

lemma npGet1_nonneg {α : Type} (row : List α) (i : ℤ) (h : 0 ≤ i) :
    npGet1 row i = row[i.toNat]? := by
  unfold npGet1
  simp [not_lt.mpr h, h]

lemma npGet2_nonneg {α : Type} (data : Cell α) (r c : ℤ) (hr : 0 ≤ r) (hc : 0 ≤ c) :
    npGet2 data r c = cellGet? data r.toNat c.toNat := by
  unfold npGet2 cellGet?
  rw [npGet1_nonneg data r hr]
  cases hrow : data[r.toNat]? with
  | none => rfl
  | some row => simp [npGet1_nonneg row c hc]

lemma cellGet?_eq_Sget (data : Cell ℚ) {sx : ℕ} (hrect : ∀ row ∈ data, row.length = sx)
    {r c : ℕ} (hr : r < data.length) (hc : c < sx) :
    cellGet? data r c = some (Sget data r c) := by
  unfold cellGet? Sget cellGet?
  rw [List.getElem?_eq_getElem hr, Option.some_bind]
  have hrow : data[r] ∈ data := List.getElem_mem hr
  have hlen : data[r].length = sx := hrect _ hrow
  rw [List.getElem?_eq_getElem (by omega : c < data[r].length)]
  rfl

lemma npGet2_col_oob {α : Type} (data : Cell α) {sx : ℕ}
    (hrect : ∀ row ∈ data, row.length = sx) (r c : ℤ) (hr : 0 ≤ r) (hc : 0 ≤ c)
    (hoob : (sx : ℤ) ≤ c) : npGet2 data r c = none := by
  unfold npGet2
  rw [npGet1_nonneg data r hr]
  cases hrow : data[r.toNat]? with
  | none => rfl
  | some row =>
    have hmem : row ∈ data := List.getElem?_mem hrow
    have hlen : row.length = sx := hrect _ hmem
    rw [Option.some_bind, npGet1_nonneg row c hc]
    apply List.getElem?_eq_none
    omega

lemma npGet2_row_oob {α : Type} (data : Cell α) (r c : ℤ) (hr : 0 ≤ r)
    (hoob : (data.length : ℤ) ≤ r) : npGet2 data r c = none := by
  unfold npGet2
  rw [npGet1_nonneg data r hr]
  rw [List.getElem?_eq_none (by omega : data.length ≤ r.toNat)]
  rfl

/-- Interior characterization of `grad`: with `0 ≤ ⌊x⌋ ≤ shape_x - 2` and
`0 ≤ ⌊y⌋ ≤ shape_y - 2`, the query succeeds and returns the forward
differences of the lower-left triangle when `dx + dy < 1` and the backward
differences of the upper-right triangle otherwise. -/
lemma grad_interior (data : Cell ℚ) (sx : ℕ) (x y : ℚ)
    (hrect : ∀ row ∈ data, row.length = sx)
    (hx0 : 0 ≤ ⌊x⌋) (hx1 : ⌊x⌋ ≤ (sx : ℤ) - 2)
    (hy0 : 0 ≤ ⌊y⌋) (hy1 : ⌊y⌋ ≤ (data.length : ℤ) - 2) :
    grad data x y =
      Except.ok (
        if x - (⌊x⌋ : ℚ) + (y - (⌊y⌋ : ℚ)) < 1 then
          (Sget data ⌊y⌋.toNat (⌊x⌋.toNat + 1) - Sget data ⌊y⌋.toNat ⌊x⌋.toNat,
           Sget data (⌊y⌋.toNat + 1) ⌊x⌋.toNat - Sget data ⌊y⌋.toNat ⌊x⌋.toNat)
        else
          (Sget data (⌊y⌋.toNat + 1) (⌊x⌋.toNat + 1) -
             Sget data (⌊y⌋.toNat + 1) ⌊x⌋.toNat,
           Sget data (⌊y⌋.toNat + 1) (⌊x⌋.toNat + 1) -
             Sget data ⌊y⌋.toNat (⌊x⌋.toNat + 1))) := by
  have hpx : pyint x = ⌊x⌋ := pyint_of_floor_nonneg hx0
  have hpy : pyint y = ⌊y⌋ := pyint_of_floor_nonneg hy0
  have htx : (⌊x⌋ + 1).toNat = ⌊x⌋.toNat + 1 := by omega
  have hty : (⌊y⌋ + 1).toNat = ⌊y⌋.toNat + 1 := by omega
  have hylt : ⌊y⌋.toNat < data.length := by omega
  have hylt1 : ⌊y⌋.toNat + 1 < data.length := by omega
  have hxlt : ⌊x⌋.toNat < sx := by omega
  have hxlt1 : ⌊x⌋.toNat + 1 < sx := by omega
  rw [grad, hpx, hpy]
  rw [npGet2_nonneg data ⌊y⌋ (⌊x⌋ + 1) hy0 (by omega),
      npGet2_nonneg data ⌊y⌋ ⌊x⌋ hy0 hx0,
      npGet2_nonneg data (⌊y⌋ + 1) ⌊x⌋ (by omega) hx0,
      npGet2_nonneg data (⌊y⌋ + 1) (⌊x⌋ + 1) (by omega) (by omega)]
  rw [htx, hty]
  rw [cellGet?_eq_Sget data hrect hylt hxlt1,
      cellGet?_eq_Sget data hrect hylt hxlt,
      cellGet?_eq_Sget data hrect hylt1 hxlt,
      cellGet?_eq_Sget data hrect hylt1 hxlt1]
  split_ifs <;> rfl

lemma Sget_const (data : Cell ℚ) {sx : ℕ} (c : ℚ)
    (hrect : ∀ row ∈ data, row.length = sx)
    (hconst : ∀ row ∈ data, ∀ v ∈ row, v = c)
    {r q : ℕ} (hr : r < data.length) (hq : q < sx) : Sget data r q = c := by
  unfold Sget cellGet?
  rw [List.getElem?_eq_getElem hr, Option.some_bind]
  have hrow : data[r] ∈ data := List.getElem_mem hr
  have hlen : data[r].length = sx := hrect _ hrow
  rw [List.getElem?_eq_getElem (by omega : q < data[r].length)]
  exact hconst _ hrow _ (List.getElem_mem (by omega))

/-! ### Claim theorems about the gradient estimator -/

/-- C1: for every surface and query point with `0 ≤ ⌊x⌋ ≤ shape_x - 2` and
`0 ≤ ⌊y⌋ ≤ shape_y - 2`, `grad` returns, with `fx = ⌊x⌋`, `fy = ⌊y⌋`,
`dx = x - fx`, `dy = y - fy`: if `dx + dy < 1` then
`(S[fy][fx+1] - S[fy][fx], S[fy+1][fx] - S[fy][fx])`, and otherwise —
including exactly at the tie `dx + dy = 1` — 
`(S[fy+1][fx+1] - S[fy+1][fx], S[fy+1][fx+1] - S[fy][fx+1])`. -/
theorem C1_grad_triangle_branches (data : Cell ℚ) (sx : ℕ) (x y : ℚ)
    (hrect : ∀ row ∈ data, row.length = sx)
    (hx0 : 0 ≤ ⌊x⌋) (hx1 : ⌊x⌋ ≤ (sx : ℤ) - 2)
    (hy0 : 0 ≤ ⌊y⌋) (hy1 : ⌊y⌋ ≤ (data.length : ℤ) - 2) :
    grad data x y =
      Except.ok (
        if x - (⌊x⌋ : ℚ) + (y - (⌊y⌋ : ℚ)) < 1 then
          (Sget data ⌊y⌋.toNat (⌊x⌋.toNat + 1) - Sget data ⌊y⌋.toNat ⌊x⌋.toNat,
           Sget data (⌊y⌋.toNat + 1) ⌊x⌋.toNat - Sget data ⌊y⌋.toNat ⌊x⌋.toNat)
        else
          (Sget data (⌊y⌋.toNat + 1) (⌊x⌋.toNat + 1) -
             Sget data (⌊y⌋.toNat + 1) ⌊x⌋.toNat,
           Sget data (⌊y⌋.toNat + 1) (⌊x⌋.toNat + 1) -
             Sget data ⌊y⌋.toNat (⌊x⌋.toNat + 1))) :=
  grad_interior data sx x y hrect hx0 hx1 hy0 hy1

theorem C1_grad_triangle_branches_witness :
    grad [[0, 1], [2, 4]] (1/2) (1/4) = Except.ok (1, 2) := by
  have h := C1_grad_triangle_branches [[0, 1], [2, 4]] 2 (1/2) (1/4)
    (by decide) (by norm_num) (by norm_num) (by norm_num) (by norm_num)
  rw [h]
  norm_num [Sget, cellGet?]

/-- C6: on a constant-valued surface, every interior gradient query returns
`(0, 0)` whichever triangle branch is taken. -/
theorem C6_constant_surface (data : Cell ℚ) (sx : ℕ) (c : ℚ) (x y : ℚ)
    (hrect : ∀ row ∈ data, row.length = sx)
    (hconst : ∀ row ∈ data, ∀ v ∈ row, v = c)
    (hx0 : 0 ≤ ⌊x⌋) (hx1 : ⌊x⌋ ≤ (sx : ℤ) - 2)
    (hy0 : 0 ≤ ⌊y⌋) (hy1 : ⌊y⌋ ≤ (data.length : ℤ) - 2) :
    grad data x y = Except.ok (0, 0) := by
  rw [grad_interior data sx x y hrect hx0 hx1 hy0 hy1]
  rw [@Sget_const data sx c hrect hconst ⌊y⌋.toNat (⌊x⌋.toNat + 1) (by omega) (by omega),
      @Sget_const data sx c hrect hconst ⌊y⌋.toNat ⌊x⌋.toNat (by omega) (by omega),
      @Sget_const data sx c hrect hconst (⌊y⌋.toNat + 1) ⌊x⌋.toNat (by omega) (by omega),
      @Sget_const data sx c hrect hconst (⌊y⌋.toNat + 1) (⌊x⌋.toNat + 1) (by omega) (by omega)]
  simp

theorem C6_constant_surface_witness :
    grad [[3, 3], [3, 3]] (1/2) (1/2) = Except.ok (0, 0) :=
  C6_constant_surface [[3, 3], [3, 3]] 2 3 (1/2) (1/2) (by decide) (by decide)
    (by norm_num) (by norm_num) (by norm_num) (by norm_num)

/-- C10: because `grad` truncates toward zero (`int(x)`) instead of flooring,
a query with `-1 < x < 0` and interior `y` succeeds: `fx = 0`, `dx = x < 0`
forces the lower-left branch, and the result is
`(S[fy][1] - S[fy][0], S[fy+1][0] - S[fy][0])` although the point lies
outside the surface. -/
theorem C10_negative_truncation (data : Cell ℚ) (sx : ℕ) (x y : ℚ)
    (hrect : ∀ row ∈ data, row.length = sx) (hsx : 2 ≤ sx)
    (hx0 : -1 < x) (hx1 : x < 0)
    (hy0 : 0 ≤ y) (hy1 : ⌊y⌋ ≤ (data.length : ℤ) - 2) :
    grad data x y =
      Except.ok (Sget data ⌊y⌋.toNat 1 - Sget data ⌊y⌋.toNat 0,
                 Sget data (⌊y⌋.toNat + 1) 0 - Sget data ⌊y⌋.toNat 0) := by
  have hy0' : 0 ≤ ⌊y⌋ := Int.floor_nonneg.mpr hy0
  have hpx : pyint x = 0 := by
    unfold pyint
    rw [if_neg (not_le.mpr hx1)]
    have h1 : ⌈x⌉ ≤ 0 := Int.ceil_le.mpr (by exact_mod_cast le_of_lt hx1)
    have h2 : (-1 : ℤ) < ⌈x⌉ := by
      rw [Int.lt_ceil]
      exact_mod_cast hx0
    omega
  have hpy : pyint y = ⌊y⌋ := pyint_of_floor_nonneg hy0'
  rw [grad, hpx, hpy]
  have hcond : x - ((0 : ℤ) : ℚ) + (y - (⌊y⌋ : ℚ)) < 1 := by
    have hfr : y - (⌊y⌋ : ℚ) < 1 := by
      have := Int.lt_floor_add_one y
      linarith
    push_cast
    linarith
  rw [if_pos hcond, zero_add]
  rw [npGet2_nonneg data ⌊y⌋ 1 hy0' (by omega),
      npGet2_nonneg data ⌊y⌋ 0 hy0' le_rfl,
      npGet2_nonneg data (⌊y⌋ + 1) 0 (by omega) le_rfl]
  have hty : (⌊y⌋ + 1).toNat = ⌊y⌋.toNat + 1 := by omega
  rw [hty, Int.toNat_one, Int.toNat_zero]
  rw [cellGet?_eq_Sget data hrect (by omega) (by omega : 1 < sx),
      cellGet?_eq_Sget data hrect (by omega) (by omega : 0 < sx),
      cellGet?_eq_Sget data hrect (by omega) (by omega : 0 < sx)]

theorem C10_negative_truncation_witness :
    grad [[1, 5], [7, 9]] (-1/4) (1/4) = Except.ok (4, 6) := by
  have h := C10_negative_truncation [[1, 5], [7, 9]] 2 (-1/4) (1/4)
    (by decide) (by norm_num) (by norm_num) (by norm_num) (by norm_num) (by norm_num)
  rw [h]
  norm_num [Sget, cellGet?]

/-- C4 as stated is false: it asserts a bounds failure for every query point
whose floor lies outside `[0, shape - 2]` on some axis, but at `x = -1/2`
(so `⌊x⌋ = -1`, outside) the code truncates `int(-1/2) = 0` and the query
returns `ok (1, 2)` on the surface `[[0, 1], [2, 4]]`. -/
theorem C4_counterexample_neg_query :
    ⌊(-1/2 : ℚ)⌋ < 0 ∧ grad [[0, 1], [2, 4]] (-1/2) 0 = Except.ok (1, 2) := by
  constructor
  · norm_num
  · have h1 : pyint (-1/2 : ℚ) = 0 := by unfold pyint; norm_num
    have h2 : pyint (0 : ℚ) = 0 := by unfold pyint; norm_num
    rw [grad, h1, h2]
    norm_num [npGet1, npGet2]

/-- C4 amended: restricted to nonnegative query coordinates (where Python
truncation agrees with floor and no numpy wrap-around occurs), a violation of
the interior precondition — `⌊x⌋ > shape_x - 2` or `⌊y⌋ > shape_y - 2` —
makes `grad`, `grad_norm` and `grad_angle` all fail with an IndexError. -/
theorem C4_amended_bounds (data : Cell ℚ) (sx : ℕ) (x y : ℚ)
    (hrect : ∀ row ∈ data, row.length = sx)
    (hx0 : 0 ≤ x) (hy0 : 0 ≤ y)
    (hviol : (sx : ℤ) - 2 < ⌊x⌋ ∨ (data.length : ℤ) - 2 < ⌊y⌋) :
    grad data x y = Except.error GradError.indexError ∧
    grad_norm data x y = Except.error GradError.indexError ∧
    grad_angle data x y = Except.error GradError.indexError := by
  have hfx : 0 ≤ ⌊x⌋ := Int.floor_nonneg.mpr hx0
  have hfy : 0 ≤ ⌊y⌋ := Int.floor_nonneg.mpr hy0
  have hg : grad data x y = Except.error GradError.indexError := by
    rw [grad, pyint_of_floor_nonneg hfx, pyint_of_floor_nonneg hfy]
    rcases hviol with hcol | hrow
    · have h1 : npGet2 data ⌊y⌋ (⌊x⌋ + 1) = none :=
        npGet2_col_oob data hrect ⌊y⌋ (⌊x⌋ + 1) hfy (by omega) (by omega)
      have h2 : npGet2 data (⌊y⌋ + 1) (⌊x⌋ + 1) = none :=
        npGet2_col_oob data hrect (⌊y⌋ + 1) (⌊x⌋ + 1) (by omega) (by omega) (by omega)
      split_ifs
      · rw [h1]
      · rw [h2]
    · have h1 : npGet2 data (⌊y⌋ + 1) ⌊x⌋ = none :=
        npGet2_row_oob data (⌊y⌋ + 1) ⌊x⌋ (by omega) (by omega)
      have h2 : npGet2 data (⌊y⌋ + 1) (⌊x⌋ + 1) = none :=
        npGet2_row_oob data (⌊y⌋ + 1) (⌊x⌋ + 1) (by omega) (by omega)
      split_ifs
      · rw [h1]
        cases npGet2 data ⌊y⌋ (⌊x⌋ + 1) <;> cases npGet2 data ⌊y⌋ ⌊x⌋ <;> rfl
      · rw [h2]
  refine ⟨hg, ?_, ?_⟩
  · simp [grad_norm, hg, Except.map]
  · simp [grad_angle, hg, Except.map]

theorem C4_amended_bounds_witness :
    grad [[0, 1], [2, 4]] 5 0 = Except.error GradError.indexError ∧
    grad_norm [[0, 1], [2, 4]] 5 0 = Except.error GradError.indexError ∧
    grad_angle [[0, 1], [2, 4]] 5 0 = Except.error GradError.indexError :=
  C4_amended_bounds [[0, 1], [2, 4]] 2 5 0 (by decide) (by norm_num) (by norm_num)
    (Or.inl (by norm_num))

/-! ### Assembler: fetch-or-fallback, hstack/vstack, buildRegion -/

/-- Model of `np.zeros((256, 256))` (elevation) / `np.zeros((256, 256, 3))` (image):
the canonical zero-filled tile, a 256×256 block holding the zero value `z`
of the cell type (`0.0` for elevation, the zero RGB triple for images). -/
def zerosTile {α : Type} (z : α) : Cell α :=
  List.replicate 256 (List.replicate 256 z)

/-- Lines 66–83 for one tile: the external fetch collaborator (network
transport and image/CSV decoding are outside the core per the spec, which
reduces them to "return a decoded numeric array or a failure").  On the
caught failure path the code substitutes the canonical zero tile. -/
def fetchCell {α : Type} (fetch : TileCoord → Option (Cell α)) (z : α)
    (t : TileCoord) : Cell α :=
  (fetch t).getD (zerosTile z)

/-- Embedding of `np.hstack` on equal-height 2-D blocks: concatenate along the
horizontal axis, row by row. -/
def hstack {α : Type} : List (Cell α) → Cell α
  | [] => []
  | [cell] => cell
  | cell :: c2 :: cs => List.zipWith (· ++ ·) cell (hstack (c2 :: cs))

/-- Embedding of `np.vstack` on 2-D blocks: concatenate along the vertical axis. -/
def vstack {α : Type} (blocks : List (Cell α)) : Cell α := blocks.flatten

/-- Lines 61–88: fetch-or-fallback every tile of the matrix, `np.hstack`
each row of cells, then `np.vstack` the assembled rows, in matrix order. -/
def assemble {α : Type} (fetch : TileCoord → Option (Cell α)) (z : α)
    (tileMatrix : List (List TileCoord)) : Cell α :=
  vstack (tileMatrix.map fun tileRow => hstack (tileRow.map (fetchCell fetch z)))

/-- Embedding of `MapTile.__init__` end to end: resolve the tile matrix, then download
and assemble.  A resolution error happens before any fetch, so the result is
then the same `Except.error` whatever `fetch` would return. -/
def buildRegion {α : Type} (from_tile : TileCoord) (to_tile : Option TileCoord)
    (zoom : Option ℤ) (fetch : TileCoord → Option (Cell α)) (z : α) :
    Except BuildError (Cell α) :=
  (resolveTileList from_tile to_tile zoom).map (assemble fetch z)

/-! ### Elevation text parsing -/

/-- One token of an elevation text tile: the no-data / sea sentinel `"e"`,
or a numeric token whose parsed value is `q`. -/
inductive ElevToken where
  | e
  | val (q : ℚ)
deriving DecidableEq

/-- The value a token contributes after `.replace("e", 0)` and
`.astype(float)` (lines 79–80): the sentinel becomes `0.0`, a numeric token
its parsed value. -/
def tokVal : ElevToken → ℚ
  | ElevToken.e => 0
  | ElevToken.val q => q

/-- Lines 79–80 at the token level: `pd.read_csv` tokenizes the tile into a
grid, `.replace("e", 0)` maps exactly the cells equal to the sentinel to
`0`, and `.astype(float)` parses every remaining token as a float. -/
def parseElevTile (g : List (List ElevToken)) : Cell ℚ :=
  g.map fun row => row.map tokVal

/-- C7: parsing an elevation text tile preserves the `H×W` grid shape,
and each cell of the result is the sentinel-aware value of the
corresponding token — `0.0` exactly where the token is the sentinel `"e"`,
the parsed float everywhere else. -/
theorem C7_elev_sentinel_parse (g : List (List ElevToken)) :
    (parseElevTile g).length = g.length ∧
    (∀ i : ℕ, (parseElevTile g)[i]?.map List.length = g[i]?.map List.length) ∧
    ∀ i j : ℕ, cellGet? (parseElevTile g) i j = (cellGet? g i j).map tokVal := by
  refine ⟨by simp [parseElevTile], ?_, ?_⟩
  · intro i
    rw [parseElevTile, List.getElem?_map]
    cases g[i]? <;> simp
  · intro i j
    unfold cellGet? parseElevTile
    rw [List.getElem?_map]
    cases g[i]? with
    | none => rfl
    | some row => simp [List.getElem?_map]

/-! ### A sequence of gradient queries never mutates the surface -/

/-- One public gradient query on the tile object. -/
inductive Query where
  | grad (x y : ℚ)
  | grad_norm (x y : ℚ)
  | grad_angle (x y : ℚ)

/-- The result of one query: a gradient vector or a derived scalar, either
possibly an IndexError. -/
inductive QueryResult where
  | vec (r : Except GradError (ℚ × ℚ))
  | scalar (r : Except GradError ℝ)

/-- The object state the gradient methods see: the `data` and `shape`
attributes of the `MapTile`. -/
structure TileState where
  data : Cell ℚ
  shape : ℕ × ℕ

/-- One method call on the object state.  The bodies of `grad`, `grad_norm`
and `grad_angle` (lines 92–119) only read `self.data` and assign no
attribute, so each call hands the state back unchanged next to its result. -/
noncomputable def runQuery (t : TileState) (q : Query) : QueryResult × TileState :=
  match q with
  | Query.grad x y => (QueryResult.vec (grad t.data x y), t)
  | Query.grad_norm x y => (QueryResult.scalar (grad_norm t.data x y), t)
  | Query.grad_angle x y => (QueryResult.scalar (grad_angle t.data x y), t)

/-- A sequence of queries, threading the object state call to call. -/
noncomputable def runQueries (t : TileState) (qs : List Query) :
    List QueryResult × TileState :=
  match qs with
  | [] => ([], t)
  | q :: rest =>
    let r := runQuery t q
    let rs := runQueries r.2 rest
    (r.1 :: rs.1, rs.2)

/-- C9: any sequence of `grad` / `grad_norm` / `grad_angle` calls — whether
each succeeds or fails with an IndexError — leaves the surface's `data` and
`shape` exactly as they were: the estimator only reads the surface. -/
theorem C9_queries_preserve_surface (t : TileState) (qs : List Query) :
    (runQueries t qs).2 = t := by
  induction qs generalizing t with
  | nil => rfl
  | cons q rest ih =>
    have hq : (runQuery t q).2 = t := by cases q <;> rfl
    calc (runQueries t (q :: rest)).2
        = (runQueries (runQuery t q).2 rest).2 := rfl
      _ = (runQuery t q).2 := ih _
      _ = t := hq

/-! ### Resolver lemmas and claims C2, C5, C8 -/

lemma intRange_length (a b : ℤ) : (intRange a b).length = (b - a).toNat := by
  rw [intRange, List.length_map, List.length_range]

lemma intRange_getElem? (a b : ℤ) (j : ℕ) (hj : j < (b - a).toNat) :
    (intRange a b)[j]? = some (a + (j : ℤ)) := by
  rw [intRange, List.getElem?_map, List.getElem?_range hj]
  rfl

/-- C2: with both corners at or above the target zoom and the target zoom
within `MAX_ZOOM`, resolution succeeds, and the matrix is exactly the
row-major rectangle `[zoom, x1 + ii, y1 + jj]` with top-left
`x1 = x0 * 2^(zoom - z0)`, `y1 = y0 * 2^(zoom - z0)` and bottom-right
`x2 = (x1' + 1) * 2^(zoom - z1) - 1`, `y2 = (y1' + 1) * 2^(zoom - z1) - 1`
(row count `y2 + 1 - y1`, column count `x2 + 1 - x1`, `y` outer ascending,
`x` inner ascending). -/
theorem C2_resolve_matrix (ft tt : TileCoord) (zoom : ℤ)
    (h0 : ft.z ≤ zoom) (h1 : tt.z ≤ zoom) (h2 : zoom ≤ MAX_ZOOM) :
    ∃ M, resolveTileList ft (some tt) (some zoom) = Except.ok M ∧
      M.length =
        ((tt.y + 1) * 2 ^ (zoom - tt.z).toNat - ft.y * 2 ^ (zoom - ft.z).toNat).toNat ∧
      (∀ row ∈ M, row.length =
        ((tt.x + 1) * 2 ^ (zoom - tt.z).toNat - ft.x * 2 ^ (zoom - ft.z).toNat).toNat) ∧
      ∀ jj ii : ℕ, jj < M.length →
        ii < ((tt.x + 1) * 2 ^ (zoom - tt.z).toNat - ft.x * 2 ^ (zoom - ft.z).toNat).toNat →
        M[jj]?.bind (fun row => row[ii]?) =
          some (TileCoord.mk zoom (ft.x * 2 ^ (zoom - ft.z).toNat + (ii : ℤ))
            (ft.y * 2 ^ (zoom - ft.z).toNat + (jj : ℤ))) := by
  rw [resolveTileList]
  simp only [Option.getD_some]
  rw [if_neg (not_lt.mpr h2), if_neg (by omega : ¬(zoom < ft.z ∨ zoom < tt.z))]
  refine ⟨_, rfl, ?_, ?_, ?_⟩
  · rw [List.length_map, intRange_length]
    congr 1
    omega
  · intro row hrow
    obtain ⟨j, _, hj⟩ := List.mem_map.mp hrow
    rw [← hj, List.length_map, intRange_length]
    congr 1
    omega
  · intro jj ii hjj hii
    rw [List.length_map, intRange_length] at hjj
    rw [List.getElem?_map, intRange_getElem? _ _ jj (by omega)]
    simp only [Option.map_some', Option.some_bind]
    rw [List.getElem?_map, intRange_getElem? _ _ ii (by omega)]
    simp only [Option.map_some']

theorem C2_resolve_matrix_witness :
    ∃ M, resolveTileList (TileCoord.mk 1 0 0) (some (TileCoord.mk 1 1 0)) (some 2) =
        Except.ok M ∧
      M.length = ((((0 : ℤ) + 1) * 2 ^ ((2 : ℤ) - 1).toNat -
        0 * 2 ^ ((2 : ℤ) - 1).toNat).toNat) ∧
      (∀ row ∈ M, row.length = ((((1 : ℤ) + 1) * 2 ^ ((2 : ℤ) - 1).toNat -
        0 * 2 ^ ((2 : ℤ) - 1).toNat).toNat)) ∧
      ∀ jj ii : ℕ, jj < M.length →
        ii < ((((1 : ℤ) + 1) * 2 ^ ((2 : ℤ) - 1).toNat -
          0 * 2 ^ ((2 : ℤ) - 1).toNat).toNat) →
        M[jj]?.bind (fun row => row[ii]?) =
          some (TileCoord.mk 2 (0 * 2 ^ ((2 : ℤ) - 1).toNat + (ii : ℤ))
            (0 * 2 ^ ((2 : ℤ) - 1).toNat + (jj : ℤ))) :=
  C2_resolve_matrix (TileCoord.mk 1 0 0) (TileCoord.mk 1 1 0) 2
    (by norm_num) (by norm_num) (by norm_num [MAX_ZOOM])

/-- C5: a target zoom strictly coarser than either corner tile's zoom makes
region construction fail during resolution, for every fetch behaviour — the
fractional scale `2 ** (zoom - z)` is a Python float, `range` rejects it
with a TypeError before the download loop, and no tile index is silently
truncated.  (If the `MAX_ZOOM` assertion also fails, that earlier
resolution-time error is reported instead.) -/
theorem C5_coarser_zoom_fails {α : Type} (ft tt : TileCoord) (zoom : ℤ)
    (fetch : TileCoord → Option (Cell α)) (z : α)
    (h : zoom < ft.z ∨ zoom < tt.z) :
    buildRegion ft (some tt) (some zoom) fetch z =
      Except.error (if MAX_ZOOM < zoom then BuildError.assertMaxZoom
        else BuildError.typeErrorRange) := by
  unfold buildRegion resolveTileList
  simp only [Option.getD_some]
  by_cases h1 : MAX_ZOOM < zoom
  · rw [if_pos h1, if_pos h1]
    rfl
  · rw [if_neg h1, if_neg h1, if_pos h]
    rfl

theorem C5_coarser_zoom_fails_witness :
    buildRegion (TileCoord.mk 3 0 0) (some (TileCoord.mk 3 0 0)) (some 2)
      (fun _ => (none : Option (Cell ℚ))) 0 = Except.error BuildError.typeErrorRange := by
  have h := C5_coarser_zoom_fails (TileCoord.mk 3 0 0) (TileCoord.mk 3 0 0) 2
    (fun _ => (none : Option (Cell ℚ))) 0 (Or.inl (by norm_num))
  rw [h, if_neg (by norm_num [MAX_ZOOM])]

/-- C8: a target zoom (after defaulting to `from_tile`'s zoom) above
`MAX_ZOOM = 18` fails the `assert` at resolution time, for every fetch
behaviour — before any per-tile fetch occurs. -/
theorem C8_max_zoom_fails {α : Type} (ft : TileCoord) (tt : Option TileCoord)
    (zoom : Option ℤ) (fetch : TileCoord → Option (Cell α)) (z : α)
    (h : MAX_ZOOM < zoom.getD ft.z) :
    buildRegion ft tt zoom fetch z = Except.error BuildError.assertMaxZoom := by
  unfold buildRegion resolveTileList
  rw [if_pos h]
  rfl

theorem C8_max_zoom_fails_witness :
    buildRegion (TileCoord.mk 19 0 0) none none
      (fun _ => (none : Option (Cell ℚ))) 0 = Except.error BuildError.assertMaxZoom :=
  C8_max_zoom_fails (TileCoord.mk 19 0 0) none none (fun _ => none) 0
    (by norm_num [MAX_ZOOM])

/-! ### Block-indexing lemmas for the assembled surface -/

lemma flatten_length_uniform {β : Type} (L : List (List β)) (k : ℕ)
    (hk : ∀ l ∈ L, l.length = k) : L.flatten.length = k * L.length := by
  induction L with
  | nil => simp
  | cons l tl ih =>
    rw [List.flatten_cons, List.length_append, hk l (List.mem_cons_self l tl),
      ih (fun l hl => hk l (List.mem_cons_of_mem _ hl)), List.length_cons]
    ring

lemma flatten_getElem?_uniform {β : Type} (L : List (List β)) (k : ℕ)
    (hk : ∀ l ∈ L, l.length = k) (j r : ℕ) (hj : j < L.length) (hr : r < k) :
    L.flatten[k * j + r]? = L[j]?.bind fun l => l[r]? := by
  induction L generalizing j with
  | nil => simp at hj
  | cons l tl ih =>
    have hl : l.length = k := hk l (List.mem_cons_self l tl)
    cases j with
    | zero =>
      rw [List.flatten_cons, Nat.mul_zero, Nat.zero_add,
        List.getElem?_append_left (by omega)]
      simp
    | succ j' =>
      rw [List.flatten_cons]
      have hidx : k * (j' + 1) + r = l.length + (k * j' + r) := by
        rw [hl]; ring
      rw [hidx, List.getElem?_append_right (by omega), Nat.add_sub_cancel_left]
      rw [ih (fun l hl => hk l (List.mem_cons_of_mem _ hl)) j' (by simpa using hj)]
      rw [List.getElem?_cons_succ]

lemma hstack_length {α : Type} (cells : List (Cell α)) (H : ℕ) (hne : cells ≠ [])
    (hH : ∀ c ∈ cells, c.length = H) : (hstack cells).length = H := by
  induction cells with
  | nil => exact absurd rfl hne
  | cons c cs ih =>
    cases cs with
    | nil => exact hH c (List.mem_cons_self c [])
    | cons c2 cs' =>
      rw [hstack, List.length_zipWith,
        ih (by simp) (fun b hb => hH b (List.mem_cons_of_mem _ hb)),
        hH c (List.mem_cons_self _ _)]
      exact Nat.min_self H

lemma hstack_getElem? {α : Type} (cells : List (Cell α)) (H : ℕ) (hne : cells ≠ [])
    (hH : ∀ b ∈ cells, b.length = H) (r : ℕ) (hr : r < H) :
    (hstack cells)[r]? = some ((cells.map fun b => (b[r]?).getD []).flatten) := by
  induction cells with
  | nil => exact absurd rfl hne
  | cons b bs ih =>
    have hb : b.length = H := hH b (List.mem_cons_self b bs)
    have hbr : b[r]? = some b[r] := List.getElem?_eq_getElem (by omega)
    cases bs with
    | nil =>
      rw [hstack]
      simp [hbr]
    | cons b2 bs' =>
      rw [hstack, List.getElem?_zipWith]
      rw [ih (by simp) (fun q hq => hH q (List.mem_cons_of_mem _ hq)), hbr]
      simp [hbr]

/-- Shape of a fetched-or-fallback cell: always the canonical 256×256. -/
lemma fetchCell_shape {α : Type} (fetch : TileCoord → Option (Cell α)) (z : α)
    (hcells : ∀ t cell, fetch t = some cell →
      cell.length = 256 ∧ ∀ row ∈ cell, row.length = 256) (t : TileCoord) :
    (fetchCell fetch z t).length = 256 ∧
      ∀ row ∈ fetchCell fetch z t, row.length = 256 := by
  unfold fetchCell
  cases hf : fetch t with
  | none =>
    constructor
    · rw [zerosTile]
      exact List.length_replicate 256 _
    · intro row hrow
      rw [List.eq_of_mem_replicate hrow]
      exact List.length_replicate 256 z
  | some cell => simpa using hcells t cell hf

lemma lt_length_of_getElem?_eq_some {β : Type} {l : List β} {i : ℕ} {a : β}
    (h : l[i]? = some a) : i < l.length := by
  by_contra hc
  rw [List.getElem?_eq_none (by omega)] at h
  exact Option.noConfusion h

/-- Every assembled row-block is 256 rows high. -/
lemma blocks_height {α : Type} (f : TileCoord → Option (Cell α)) (z : α)
    (m : List (List TileCoord)) (C : ℕ)
    (hrect : ∀ row ∈ m, row.length = C) (hC : 0 < C)
    (hcells : ∀ t cell, f t = some cell →
      cell.length = 256 ∧ ∀ row ∈ cell, row.length = 256) :
    ∀ bk ∈ m.map (fun row => hstack (row.map (fetchCell f z))), bk.length = 256 := by
  intro bk hbk
  obtain ⟨row, hrowm, rfl⟩ := List.mem_map.mp hbk
  apply hstack_length _ 256
  · intro hnil
    rw [List.map_eq_nil_iff] at hnil
    have hlen := hrect _ hrowm
    rw [hnil] at hlen
    simp at hlen
    omega
  · intro b hb
    obtain ⟨t', _, rfl⟩ := List.mem_map.mp hb
    exact (fetchCell_shape f z hcells t').1

/-- The assembled surface has `256 * rows` rows. -/
lemma assemble_length {α : Type} (f : TileCoord → Option (Cell α)) (z : α)
    (m : List (List TileCoord)) (C : ℕ)
    (hrect : ∀ row ∈ m, row.length = C) (hC : 0 < C)
    (hcells : ∀ t cell, f t = some cell →
      cell.length = 256 ∧ ∀ row ∈ cell, row.length = 256) :
    (assemble f z m).length = 256 * m.length := by
  unfold assemble vstack
  rw [flatten_length_uniform _ 256 (blocks_height f z m C hrect hC hcells),
    List.length_map]

/-- Every row of the assembled surface has `256 * C` entries. -/
lemma assemble_rows {α : Type} (f : TileCoord → Option (Cell α)) (z : α)
    (m : List (List TileCoord)) (C : ℕ)
    (hrect : ∀ row ∈ m, row.length = C) (hC : 0 < C)
    (hcells : ∀ t cell, f t = some cell →
      cell.length = 256 ∧ ∀ row ∈ cell, row.length = 256) :
    ∀ row ∈ assemble f z m, row.length = 256 * C := by
  intro row hrow
  unfold assemble vstack at hrow
  obtain ⟨bk, hbk, hrowbk⟩ := List.mem_flatten.mp hrow
  obtain ⟨mrow, hmrow, rfl⟩ := List.mem_map.mp hbk
  have hmlen : mrow.length = C := hrect _ hmrow
  have hcne : mrow.map (fetchCell f z) ≠ [] := by
    intro hnil
    rw [List.map_eq_nil_iff] at hnil
    rw [hnil] at hmlen
    simp at hmlen
    omega
  have hch : ∀ b ∈ mrow.map (fetchCell f z), b.length = 256 := by
    intro b hb
    obtain ⟨t', _, rfl⟩ := List.mem_map.mp hb
    exact (fetchCell_shape f z hcells t').1
  obtain ⟨r, hr, hval⟩ := List.mem_iff_getElem.mp hrowbk
  have hlen256 : (hstack (mrow.map (fetchCell f z))).length = 256 :=
    hstack_length _ 256 hcne hch
  have hget : (hstack (mrow.map (fetchCell f z)))[r]? = some row := by
    rw [List.getElem?_eq_getElem hr, hval]
  rw [hstack_getElem? _ 256 hcne hch r (by omega)] at hget
  have hk : ∀ l ∈ (mrow.map (fetchCell f z)).map (fun b => (b[r]?).getD []),
      l.length = 256 := by
    intro l hl
    obtain ⟨b, hb, rfl⟩ := List.mem_map.mp hl
    obtain ⟨t', _, rfl⟩ := List.mem_map.mp hb
    obtain ⟨hH, hW⟩ := fetchCell_shape f z hcells t'
    rw [List.getElem?_eq_getElem (by omega), Option.getD_some]
    exact hW _ (List.getElem_mem _)
  rw [← Option.some.inj hget, flatten_length_uniform _ 256 hk,
    List.length_map, List.length_map, hmlen]

/-- Block indexing: entry `(256*jj + r', 256*ii + c')` of the assembled
surface is entry `(r', c')` of the fetched-or-fallback cell of the tile at
matrix position `(jj, ii)`. -/
lemma assemble_getElem {α : Type} (f : TileCoord → Option (Cell α)) (z : α)
    (m : List (List TileCoord)) (C : ℕ)
    (hrect : ∀ row ∈ m, row.length = C) (hC : 0 < C)
    (hcells : ∀ t cell, f t = some cell →
      cell.length = 256 ∧ ∀ row ∈ cell, row.length = 256)
    (jj ii r' c' : ℕ) (hr' : r' < 256) (hc' : c' < 256) (t : TileCoord)
    (ht : m[jj]?.bind (fun row => row[ii]?) = some t) :
    cellGet? (assemble f z m) (256 * jj + r') (256 * ii + c') =
      cellGet? (fetchCell f z t) r' c' := by
  cases hmj : m[jj]? with
  | none =>
    rw [hmj] at ht
    simp at ht
  | some rowjj =>
  rw [hmj, Option.some_bind] at ht
  have hjj : jj < m.length := lt_length_of_getElem?_eq_some hmj
  have hii : ii < rowjj.length := lt_length_of_getElem?_eq_some ht
  have hrowm : rowjj ∈ m := List.getElem?_mem hmj
  have hrowlen : rowjj.length = C := hrect _ hrowm
  have hcne : rowjj.map (fetchCell f z) ≠ [] := by
    intro hnil
    rw [List.map_eq_nil_iff] at hnil
    rw [hnil] at hrowlen
    simp at hrowlen
    omega
  have hch : ∀ b ∈ rowjj.map (fetchCell f z), b.length = 256 := by
    intro b hb
    obtain ⟨t', _, rfl⟩ := List.mem_map.mp hb
    exact (fetchCell_shape f z hcells t').1
  unfold assemble vstack cellGet?
  rw [flatten_getElem?_uniform _ 256 (blocks_height f z m C hrect hC hcells)
    jj r' (by rw [List.length_map]; omega) hr']
  rw [List.getElem?_map, hmj, Option.map_some', Option.some_bind]
  rw [hstack_getElem? _ 256 hcne hch r' hr', Option.some_bind]
  have hLk : ∀ l ∈ (rowjj.map (fetchCell f z)).map (fun b => (b[r']?).getD []),
      l.length = 256 := by
    intro l hl
    obtain ⟨b, hb, rfl⟩ := List.mem_map.mp hl
    obtain ⟨t', _, rfl⟩ := List.mem_map.mp hb
    obtain ⟨hH, hW⟩ := fetchCell_shape f z hcells t'
    rw [List.getElem?_eq_getElem (by omega), Option.getD_some]
    exact hW _ (List.getElem_mem _)
  rw [flatten_getElem?_uniform _ 256 hLk ii c'
    (by rw [List.length_map, List.length_map]; omega) hc']
  rw [List.getElem?_map, List.getElem?_map, ht, Option.map_some', Option.map_some',
    Option.some_bind]
  obtain ⟨hH, _⟩ := fetchCell_shape f z hcells t
  rw [List.getElem?_eq_getElem (by omega : r' < (fetchCell f z t).length),
    Option.getD_some, Option.some_bind]

/-- C3: failing the fetch of exactly the tile coordinate `c0` (at matrix
position `(j0, i0)`) substitutes the canonical zero tile for that tile only:
the assembled surface keeps the shape it has when every fetch succeeds
(`256 * rows` by `256 * C`), the failed tile's 256×256 region is entirely
the zero value, and the region of every other tile is exactly the content
its fetch returned. -/
theorem C3_single_fetch_failure_zero_fill {α : Type} (z : α)
    (m : List (List TileCoord)) (C : ℕ)
    (fetch f' : TileCoord → Option (Cell α)) (j0 i0 : ℕ) (c0 : TileCoord)
    (hrect : ∀ row ∈ m, row.length = C)
    (hshape : ∀ t cell, fetch t = some cell →
      cell.length = 256 ∧ ∀ row ∈ cell, row.length = 256)
    (hpos : m[j0]?.bind (fun row => row[i0]?) = some c0)
    (hf' : ∀ t, f' t = if t = c0 then none else fetch t) :
    ((assemble f' z m).length = (assemble fetch z m).length ∧
      (∀ row ∈ assemble f' z m, row.length = 256 * C) ∧
      ∀ row ∈ assemble fetch z m, row.length = 256 * C) ∧
    (∀ r' c' : ℕ, r' < 256 → c' < 256 →
      cellGet? (assemble f' z m) (256 * j0 + r') (256 * i0 + c') = some z) ∧
    ∀ jj ii : ℕ, ∀ t : TileCoord, m[jj]?.bind (fun row => row[ii]?) = some t →
      t ≠ c0 → ∀ cell, fetch t = some cell → ∀ r' c' : ℕ, r' < 256 → c' < 256 →
      cellGet? (assemble f' z m) (256 * jj + r') (256 * ii + c') =
        cellGet? cell r' c' := by
  have hshape' : ∀ t cell, f' t = some cell →
      cell.length = 256 ∧ ∀ row ∈ cell, row.length = 256 := by
    intro t cell h
    rw [hf' t] at h
    by_cases hc : t = c0
    · rw [if_pos hc] at h
      exact Option.noConfusion h
    · rw [if_neg hc] at h
      exact hshape t cell h
  have hC : 0 < C := by
    cases hmj : m[j0]? with
    | none =>
      rw [hmj] at hpos
      simp at hpos
    | some row0 =>
      rw [hmj, Option.some_bind] at hpos
      have hi0 := lt_length_of_getElem?_eq_some hpos
      have hlen := hrect _ (List.getElem?_mem hmj)
      omega
  refine ⟨⟨?_, assemble_rows f' z m C hrect hC hshape',
      assemble_rows fetch z m C hrect hC hshape⟩, ?_, ?_⟩
  · rw [assemble_length f' z m C hrect hC hshape',
      assemble_length fetch z m C hrect hC hshape]
  · intro r' c' hr' hc'
    rw [assemble_getElem f' z m C hrect hC hshape' j0 i0 r' c' hr' hc' c0 hpos]
    unfold fetchCell
    rw [hf' c0, if_pos rfl, Option.getD_none]
    unfold cellGet? zerosTile
    rw [List.getElem?_replicate_of_lt hr', Option.some_bind,
      List.getElem?_replicate_of_lt hc']
  · intro jj ii t ht htne cell hcell r' c' hr' hc'
    rw [assemble_getElem f' z m C hrect hC hshape' jj ii r' c' hr' hc' t ht]
    unfold fetchCell
    rw [hf' t, if_neg htne, hcell, Option.getD_some]

theorem C3_single_fetch_failure_zero_fill_witness :
    ((assemble
        (fun t => if t = TileCoord.mk 1 0 0 then none
          else some (zerosTile (0 : ℚ))) 0
        [[TileCoord.mk 1 0 0, TileCoord.mk 1 1 0]]).length =
      (assemble (fun _ => some (zerosTile (0 : ℚ))) 0
        [[TileCoord.mk 1 0 0, TileCoord.mk 1 1 0]]).length ∧
      (∀ row ∈ assemble
        (fun t => if t = TileCoord.mk 1 0 0 then none
          else some (zerosTile (0 : ℚ))) 0
        [[TileCoord.mk 1 0 0, TileCoord.mk 1 1 0]], row.length = 256 * 2) ∧
      ∀ row ∈ assemble (fun _ => some (zerosTile (0 : ℚ))) 0
        [[TileCoord.mk 1 0 0, TileCoord.mk 1 1 0]], row.length = 256 * 2) ∧
    (∀ r' c' : ℕ, r' < 256 → c' < 256 →
      cellGet? (assemble
        (fun t => if t = TileCoord.mk 1 0 0 then none
          else some (zerosTile (0 : ℚ))) 0
        [[TileCoord.mk 1 0 0, TileCoord.mk 1 1 0]])
        (256 * 0 + r') (256 * 0 + c') = some 0) ∧
    ∀ jj ii : ℕ, ∀ t : TileCoord,
      [[TileCoord.mk 1 0 0, TileCoord.mk 1 1 0]][jj]?.bind
        (fun row => row[ii]?) = some t →
      t ≠ TileCoord.mk 1 0 0 → ∀ cell,
      (fun _ => some (zerosTile (0 : ℚ))) t = some cell →
      ∀ r' c' : ℕ, r' < 256 → c' < 256 →
      cellGet? (assemble
        (fun t => if t = TileCoord.mk 1 0 0 then none
          else some (zerosTile (0 : ℚ))) 0
        [[TileCoord.mk 1 0 0, TileCoord.mk 1 1 0]])
        (256 * jj + r') (256 * ii + c') = cellGet? cell r' c' :=
  C3_single_fetch_failure_zero_fill 0
    [[TileCoord.mk 1 0 0, TileCoord.mk 1 1 0]] 2
    (fun _ => some (zerosTile (0 : ℚ)))
    (fun t => if t = TileCoord.mk 1 0 0 then none else some (zerosTile (0 : ℚ)))
    0 0 (TileCoord.mk 1 0 0)
    (by decide)
    (by
      intro t cell h
      injection h with h
      rw [← h]
      constructor
      · rw [zerosTile]
        exact List.length_replicate 256 _
      · intro row hrow
        rw [List.eq_of_mem_replicate hrow]
        exact List.length_replicate 256 0)
    (by decide)
    (fun t => rfl)

end GeoUtil
